import Mathlib

/-!
Verification development for the github_discussion_parser repository
(src/discussion_parser.py and src/backend.py).

Python strings are modelled as `List Char`.  Conventions used throughout:

* Python truthiness on optional strings / numbers is modelled explicitly
  (`none` and the empty string are falsy, the number 0 is falsy).
* `re`'s `\s` and `str.strip` are modelled on the ASCII whitespace
  characters (space, tab, newline, carriage return, vertical tab, form
  feed); non-ASCII whitespace is outside the modelled input range.
* File-system effects are modelled as explicit state (`FsState`), and the
  GraphQL transport as oracle functions passed to the modelled code.
* File writes are modelled as always succeeding; the IOError branches of
  the source only abort the current discussion and are not needed by the
  claims under study.
-/

/-- Python strings are modelled as lists of characters. -/
abbrev Str := List Char

/-- `sep.flatten(parts)` for a non-empty separator-joined list:
one separator between consecutive items, none after the last. -/
def joinWith (sep : Str) : List Str → Str
  | [] => []
  | [x] => x
  | x :: y :: xs => x ++ sep ++ joinWith sep (y :: xs)

/-! ## TreeSerializer: `format_body` (discussion_parser.py lines 89-97)

`format_body` strips the body, replaces the CDATA terminator `]]>` by
`]]&gt;`, collapses whitespace runs to single spaces and wraps the result
in `<![CDATA[ ... ]]>`. -/

/-- ASCII fragment of Python's `\s` / `str.strip` whitespace class. -/
def pyIsSpace (c : Char) : Bool :=
  c = ' ' ∨ c = '\t' ∨ c = '\n' ∨ c = '\r' ∨ c.toNat = 11 ∨ c.toNat = 12

/-- Python `str.strip()`: drop leading and trailing whitespace. -/
def stripWs (l : Str) : Str :=
  ((l.dropWhile pyIsSpace).reverse.dropWhile pyIsSpace).reverse

/-- Python `text.replace("]]>", "]]&gt;")`: replace every (necessarily
non-overlapping) occurrence of `]]>` left to right. -/
def replaceCdataEnd : Str → Str
  | ']' :: ']' :: '>' :: rest =>
      ']' :: ']' :: '&' :: 'g' :: 't' :: ';' :: replaceCdataEnd rest
  | c :: rest => c :: replaceCdataEnd rest
  | [] => []

/-- Collapse runs of consecutive spaces to a single space
(second half of `re.sub(r"\s+", " ", text)`). -/
def squeezeSpaces : Str → Str
  | [] => []
  | [c] => [c]
  | c1 :: c2 :: rest =>
      if c1 = ' ' ∧ c2 = ' ' then squeezeSpaces (c2 :: rest)
      else c1 :: squeezeSpaces (c2 :: rest)

/-- `re.sub(r"\s+", " ", text)`: each maximal whitespace run becomes one
space (map every whitespace character to a space, then collapse runs). -/
def collapseWs (l : Str) : Str :=
  squeezeSpaces (l.map (fun c => if pyIsSpace c then ' ' else c))

/-- Opening guard of a CDATA section. -/
def cdataOpen : Str := "<![CDATA[".data

/-- Closing guard of a CDATA section. -/
def cdataClose : Str := "]]>".data

/-- `format_body` (discussion_parser.py lines 90-97): `None` becomes an
empty CDATA section; otherwise strip, neutralize `]]>`, collapse
whitespace and wrap. -/
def format_body (text : Option Str) : Str :=
  match text with
  | none => cdataOpen ++ cdataClose
  | some t => cdataOpen ++ collapseWs (replaceCdataEnd (stripWs t)) ++ cdataClose

/-! Re-parsing the serialization format: a CDATA section ends at the
first occurrence of `]]>`, and everything before it is literal text
(no entity decoding happens inside a CDATA section). -/

/-- Split a character stream at the first occurrence of `]]>`:
returns the literal text before it and the remainder after it. -/
def splitAtCdataEnd : Str → Option (Str × Str)
  | ']' :: ']' :: '>' :: rest => some ([], rest)
  | c :: rest =>
      match splitAtCdataEnd rest with
      | some (b, a) => some (c :: b, a)
      | none => none
  | [] => none

/-- Whether `]]>` occurs somewhere in the stream. -/
def hasCdataEnd : Str → Bool
  | ']' :: ']' :: '>' :: _ => true
  | _ :: rest => hasCdataEnd rest
  | [] => false

/-- Parse a complete CDATA section `<![CDATA[ ... ]]>` back into its
literal text content. Fails if the guard is malformed or if characters
follow the terminating `]]>`. -/
def parseCdata (l : Str) : Option Str :=
  if l.take 9 = cdataOpen then
    match splitAtCdataEnd (l.drop 9) with
    | some (content, rest) => if rest = [] then some content else none
    | none => none
  else none

/-! ### Lemmas: the neutralized body never contains the terminator -/

theorem hasCdataEnd_cons3 (c d e : Char) (rest : Str) :
    hasCdataEnd (c :: d :: e :: rest) =
      (decide (c = ']' ∧ d = ']' ∧ e = '>') || hasCdataEnd (d :: e :: rest)) := by
  by_cases h1 : c = ']' <;> by_cases h2 : d = ']' <;> by_cases h3 : e = '>' <;>
    simp [hasCdataEnd, h1, h2, h3]

theorem hasCdataEnd_one (c : Char) : hasCdataEnd [c] = false := by
  by_cases h : c = ']' <;> simp [hasCdataEnd, h]

theorem hasCdataEnd_two (c d : Char) : hasCdataEnd [c, d] = false := by
  by_cases h1 : c = ']' <;> by_cases h2 : d = ']' <;> simp [hasCdataEnd, h1, h2, hasCdataEnd_one]

theorem hasCdataEnd_tail (c : Char) (l : Str) (h : hasCdataEnd (c :: l) = false) :
    hasCdataEnd l = false := by
  match l with
  | [] => rfl
  | [d] => exact hasCdataEnd_one d
  | d :: e :: r =>
    rw [hasCdataEnd_cons3] at h
    exact (Bool.or_eq_false_iff.mp h).2

theorem replaceCdataEnd_cons3 (c d e : Char) (rest : Str) :
    replaceCdataEnd (c :: d :: e :: rest) =
      if c = ']' ∧ d = ']' ∧ e = '>' then
        ']' :: ']' :: '&' :: 'g' :: 't' :: ';' :: replaceCdataEnd rest
      else c :: replaceCdataEnd (d :: e :: rest) := by
  by_cases h1 : c = ']' <;> by_cases h2 : d = ']' <;> by_cases h3 : e = '>' <;>
    simp [replaceCdataEnd, h1, h2, h3]

theorem replaceCdataEnd_one (c : Char) : replaceCdataEnd [c] = [c] := by
  by_cases h : c = ']' <;> simp [replaceCdataEnd, h]

theorem replaceCdataEnd_two (c d : Char) : replaceCdataEnd [c, d] = [c, d] := by
  by_cases h1 : c = ']' <;> by_cases h2 : d = ']' <;>
    simp [replaceCdataEnd, h1, h2, replaceCdataEnd_one]

theorem replaceCdataEnd_head_gt (m zs : Str) (h : replaceCdataEnd m = '>' :: zs) :
    ∃ tail, m = '>' :: tail := by
  match m with
  | [] => simp [replaceCdataEnd] at h
  | [a] => rw [replaceCdataEnd_one] at h; exact ⟨[], by simp_all⟩
  | [a, b] => rw [replaceCdataEnd_two] at h; exact ⟨[b], by simp_all⟩
  | a :: b :: c :: r =>
    rw [replaceCdataEnd_cons3] at h
    split at h
    · simp at h
    · exact ⟨b :: c :: r, by simp_all⟩

theorem replaceCdataEnd_head2 (m zs : Str) (h : replaceCdataEnd m = ']' :: '>' :: zs) :
    ∃ tail, m = ']' :: '>' :: tail := by
  match m with
  | [] => simp [replaceCdataEnd] at h
  | [a] => rw [replaceCdataEnd_one] at h; simp at h
  | [a, b] => rw [replaceCdataEnd_two] at h; exact ⟨[], by simp_all⟩
  | a :: b :: c :: r =>
    rw [replaceCdataEnd_cons3] at h
    split at h
    · simp at h
    · have ha : a = ']' := by simp_all
      have hb : replaceCdataEnd (b :: c :: r) = '>' :: zs := by simp_all
      obtain ⟨tail, ht⟩ := replaceCdataEnd_head_gt _ _ hb
      have hbgt : b = '>' := by simp_all
      exact ⟨c :: r, by simp_all⟩

theorem replaceCdataEnd_no_end (l : Str) : hasCdataEnd (replaceCdataEnd l) = false := by
  generalize hn : l.length = n
  induction n using Nat.strong_induction_on generalizing l with
  | _ n ih =>
    match l with
    | [] => simp [replaceCdataEnd, hasCdataEnd]
    | [c] => simp [replaceCdataEnd_one, hasCdataEnd_one]
    | [c, d] => simp [replaceCdataEnd_two, hasCdataEnd_two]
    | c :: d :: e :: rest =>
      rw [replaceCdataEnd_cons3]
      by_cases hpat : c = ']' ∧ d = ']' ∧ e = '>'
      · rw [if_pos hpat]
        have hr : hasCdataEnd (replaceCdataEnd rest) = false :=
          ih rest.length (by subst hn; simp; omega) rest rfl
        match hz : replaceCdataEnd rest with
        | [] => simp [hasCdataEnd]
        | [x] => simp [hasCdataEnd_cons3, hasCdataEnd_one, hasCdataEnd_two]
        | x :: y :: zs =>
          rw [hz] at hr
          simp_all [hasCdataEnd_cons3]
      · rw [if_neg hpat]
        have htail : hasCdataEnd (replaceCdataEnd (d :: e :: rest)) = false :=
          ih (d :: e :: rest).length (by subst hn; simp) (d :: e :: rest) rfl
        match hz : replaceCdataEnd (d :: e :: rest) with
        | [] => simp [hasCdataEnd_one]
        | [x] => simp [hasCdataEnd_two]
        | x :: y :: zs =>
          rw [hz] at htail
          rw [hasCdataEnd_cons3]
          simp only [Bool.or_eq_false_iff, decide_eq_false_iff_not]
          refine ⟨fun hcxy => ?_, htail⟩
          obtain ⟨hc, hx, hy⟩ := hcxy
          subst hx; subst hy
          obtain ⟨tail, htl⟩ := replaceCdataEnd_head2 _ _ hz
          have : d = ']' ∧ e = '>' := by
            constructor <;> simp_all
          exact hpat ⟨hc, this.1, this.2⟩

theorem squeezeSpaces_cons (xs : Str) (x : Char) :
    ∃ ys, squeezeSpaces (x :: xs) = x :: ys := by
  induction xs generalizing x with
  | nil => exact ⟨[], rfl⟩
  | cons e r ih =>
    by_cases h : x = ' ' ∧ e = ' '
    · obtain ⟨ys, hy⟩ := ih e
      refine ⟨ys, ?_⟩
      rw [show squeezeSpaces (x :: e :: r) = squeezeSpaces (e :: r) by simp [squeezeSpaces, h]]
      rw [hy, h.1, h.2]
    · exact ⟨squeezeSpaces (e :: r), by simp [squeezeSpaces, h]⟩

theorem squeezeSpaces_head2 (m ys : Str) (h : squeezeSpaces m = ']' :: '>' :: ys) :
    ∃ r, m = ']' :: '>' :: r := by
  match m with
  | [] => simp [squeezeSpaces] at h
  | [x] => simp [squeezeSpaces] at h
  | d :: e :: r =>
    by_cases hsp : d = ' ' ∧ e = ' '
    · rw [show squeezeSpaces (d :: e :: r) = squeezeSpaces (e :: r) by simp [squeezeSpaces, hsp]] at h
      obtain ⟨zs, hz⟩ := squeezeSpaces_cons r e
      rw [hz] at h
      have : e = ']' := by simp_all
      rw [hsp.2] at this
      exact absurd this (by decide)
    · rw [show squeezeSpaces (d :: e :: r) = d :: squeezeSpaces (e :: r) by
        simp [squeezeSpaces, hsp]] at h
      have hd : d = ']' := by simp_all
      have hrest : squeezeSpaces (e :: r) = '>' :: ys := by simp_all
      obtain ⟨zs, hz⟩ := squeezeSpaces_cons r e
      rw [hz] at hrest
      have he : e = '>' := by simp_all
      exact ⟨r, by rw [hd, he]⟩

theorem squeezeSpaces_no_end (l : Str) (h : hasCdataEnd l = false) :
    hasCdataEnd (squeezeSpaces l) = false := by
  induction l with
  | nil => rfl
  | cons c l' ih =>
    match l' with
    | [] => exact hasCdataEnd_one c
    | d :: rest =>
      have htail : hasCdataEnd (d :: rest) = false := hasCdataEnd_tail c _ h
      by_cases hsp : c = ' ' ∧ d = ' '
      · rw [show squeezeSpaces (c :: d :: rest) = squeezeSpaces (d :: rest) by
          simp [squeezeSpaces, hsp]]
        exact ih htail
      · rw [show squeezeSpaces (c :: d :: rest) = c :: squeezeSpaces (d :: rest) by
          simp [squeezeSpaces, hsp]]
        have hsq : hasCdataEnd (squeezeSpaces (d :: rest)) = false := ih htail
        obtain ⟨ys, hy⟩ := squeezeSpaces_cons rest d
        rw [hy] at hsq ⊢
        match ys with
        | [] => exact hasCdataEnd_two c d
        | y :: ys' =>
          rw [hasCdataEnd_cons3]
          simp only [Bool.or_eq_false_iff, decide_eq_false_iff_not]
          refine ⟨fun hcd => ?_, hsq⟩
          obtain ⟨hc, hd, hygt⟩ := hcd
          have h2 : squeezeSpaces (d :: rest) = ']' :: '>' :: ys' := by
            rw [hy, hd, hygt]
          obtain ⟨r', hr'⟩ := squeezeSpaces_head2 _ _ h2
          rw [hc] at h
          rw [hr'] at h
          simp [hasCdataEnd] at h

theorem hasCdataEnd_map_ws (l : Str) :
    hasCdataEnd (l.map (fun c => if pyIsSpace c then ' ' else c)) = hasCdataEnd l := by
  induction l with
  | nil => rfl
  | cons c l' ih =>
    match l' with
    | [] => simp [hasCdataEnd_one]
    | [d] => simp [hasCdataEnd_two]
    | d :: e :: r =>
      simp only [List.map_cons] at ih ⊢
      rw [hasCdataEnd_cons3, hasCdataEnd_cons3, ih]
      congr 1
      have key : ∀ (a t : Char), pyIsSpace t = false → ¬ t = ' ' →
          (((if pyIsSpace a then ' ' else a) = t) ↔ a = t) := by
        intro a t h1 h2
        by_cases h : pyIsSpace a
        · simp only [if_pos h]
          constructor
          · intro he; exact absurd he.symm h2
          · intro he; rw [he] at h; rw [h1] at h; exact absurd h (by simp)
        · simp [h]
      simp only [decide_eq_decide]
      rw [key c ']' (by decide) (by decide), key d ']' (by decide) (by decide),
        key e '>' (by decide) (by decide)]

/-- Round-trip: re-parsing the CDATA section produced by `format_body`
always succeeds (the terminator neutralization guarantees the literal
section is never ended prematurely) and yields the stripped,
terminator-substituted, whitespace-collapsed body. -/
theorem splitAtCdataEnd_append (l r : Str) (h : hasCdataEnd l = false) :
    splitAtCdataEnd (l ++ ']' :: ']' :: '>' :: r) = some (l, r) := by
  induction l with
  | nil => rfl
  | cons c l' ih =>
    match l' with
    | [] =>
      by_cases hc : c = ']' <;> simp [splitAtCdataEnd, hc]
    | [d] =>
      by_cases hc : c = ']' <;> by_cases hd : d = ']' <;>
        simp [splitAtCdataEnd, hc, hd]
    | d :: e :: l3 =>
      rw [hasCdataEnd_cons3] at h
      simp only [Bool.or_eq_false_iff, decide_eq_false_iff_not] at h
      obtain ⟨hpat, htail⟩ := h
      have ihv := ih htail
      by_cases h1 : c = ']' <;> by_cases h2 : d = ']' <;> by_cases h3 : e = '>' <;>
        simp_all [splitAtCdataEnd]

/-- C2 (amended): serialize neutralizes the literal-text terminator by
substituting `]]&gt;` for every `]]>`, and the produced CDATA section
always re-parses successfully (the guard is never ended prematurely);
the re-parsed literal text is the original body with leading/trailing
whitespace stripped, each `]]>` replaced by `]]&gt;`, and the remaining
whitespace runs collapsed to single spaces — not the original text
modulo whitespace collapsing alone. -/
theorem parseCdata_format_body (t : Str) :
    parseCdata (format_body (some t)) = some (collapseWs (replaceCdataEnd (stripWs t))) := by
  have hne : hasCdataEnd (collapseWs (replaceCdataEnd (stripWs t))) = false := by
    unfold collapseWs
    exact squeezeSpaces_no_end _ (by rw [hasCdataEnd_map_ws]; exact replaceCdataEnd_no_end _)
  set X := collapseWs (replaceCdataEnd (stripWs t)) with hX
  have hfb : format_body (some t) = cdataOpen ++ (X ++ cdataClose) := by
    rw [show format_body (some t) = cdataOpen ++ X ++ cdataClose from rfl, List.append_assoc]
  rw [hfb]
  unfold parseCdata
  have h1 : (cdataOpen ++ (X ++ cdataClose)).take 9 = cdataOpen := by
    rw [show (9 : Nat) = cdataOpen.length from rfl]
    exact List.take_left ..
  have h2 : (cdataOpen ++ (X ++ cdataClose)).drop 9 = X ++ cdataClose := by
    rw [show (9 : Nat) = cdataOpen.length from rfl]
    exact List.drop_left ..
  rw [h2, h1, if_pos rfl]
  rw [show cdataClose = ']' :: ']' :: '>' :: ([] : Str) from rfl]
  rw [splitAtCdataEnd_append X [] hne]
  simp

/-! ## TreeSerializer: `generate_llm_ready_markdown`
(discussion_parser.py lines 74-158)

The loosely-typed GraphQL response dictionaries are modelled as typed
records with `Option` fields for values that may be absent or `null`.
`comments`/`replies` connections are modelled as `Paged` records
(a missing connection corresponds to `⟨0, []⟩`). -/

/-- A paginated GraphQL connection: platform-reported total plus the
fetched nodes. -/
structure Paged (α : Type) where
  totalCount : Nat
  nodes : List α

/-- A GraphQL actor: the `author` object with its `login`. -/
structure GhAuthor where
  login : Option Str

/-- A fetched reply node (see the detail query in backend.py lines
370-379): the fetched data includes the minimized flag and reason. -/
structure GhReply where
  id : Option Str
  author : Option GhAuthor
  createdAt : Option Str
  bodyText : Option Str
  isMinimized : Option Bool
  minimizedReason : Option Str

/-- A fetched comment node (backend.py lines 359-381): the fetched data
includes the minimized flag and reason, and one level of replies. -/
structure GhComment where
  id : Option Str
  author : Option GhAuthor
  createdAt : Option Str
  bodyText : Option Str
  isMinimized : Option Bool
  minimizedReason : Option Str
  replies : Paged GhReply

/-- A hydrated discussion detail (backend.py lines 341-387). -/
structure GhDiscussion where
  title : Option Str
  url : Option Str
  number : Nat
  author : Option GhAuthor
  createdAt : Option Str
  bodyText : Option Str
  comments : Paged GhComment

/-- `html.escape` (with quote=True) on a single character. -/
def escapeHtmlChar (c : Char) : Str :=
  if c = '&' then "&amp;".data
  else if c = '<' then "&lt;".data
  else if c = '>' then "&gt;".data
  else if c = '"' then "&quot;".data
  else if c.toNat = 39 then "&#x27;".data
  else [c]

/-- `html.escape` on a whole string. -/
def escapeHtml (s : Str) : Str := (s.map escapeHtmlChar).flatten

/-- Default attribute value for absent data. -/
def defaultNA : Str := "N/A".data

/-- The empty string. -/
def emptyStr : Str := []

/-- `safe_get` (discussion_parser.py lines 85-87): HTML-escape a present
value, substitute the default for an absent one. -/
def safe_get (v : Option Str) (dflt : Str) : Str :=
  match v with
  | some s => escapeHtml s
  | none => dflt

/-- `safe_get(x.get('author'), 'login')`: the author object itself may
be `null`. -/
def authorLogin (a : Option GhAuthor) : Str :=
  match a with
  | some u => safe_get u.login defaultNA
  | none => defaultNA

/-- Decimal rendering of a number field (`html.escape(str(n))` is the
identity on decimal digits, applied for faithfulness). -/
def natStr (n : Nat) : Str := escapeHtml (Nat.toDigits 10 n)

/-- `safe_get(reply, 'isMinimized', 'false')` on the boolean field:
Python renders present booleans as `True`/`False` and substitutes the
literal default `false` for an absent one. -/
def minimizedAttrVal (v : Option Bool) : Str :=
  match v with
  | some true => "True".data
  | some false => "False".data
  | none => "false".data

/-- `safe_get(reply, 'minimizedReason', '') if reply.get('isMinimized')
else ''`. -/
def minimizedReasonVal (r : GhReply) : Str :=
  match r.isMinimized with
  | some true => safe_get r.minimizedReason emptyStr
  | _ => emptyStr

/-- Separator used to join the generated lines. -/
def newlineStr : Str := "\n".data

/-- Line `<discussion url=".." number=".." title="..">`. -/
def discussionOpenTag (d : GhDiscussion) : Str :=
  "<discussion url=\"".data ++ safe_get d.url defaultNA ++ "\" number=\"".data ++
    natStr d.number ++ "\" title=\"".data ++ safe_get d.title defaultNA ++ "\">".data

/-- Line `<post author=".." createdAt="..">`. -/
def postOpenTag (d : GhDiscussion) : Str :=
  "<post author=\"".data ++ authorLogin d.author ++ "\" createdAt=\"".data ++
    safe_get d.createdAt defaultNA ++ "\">".data

/-- Line `<body> ... </body>` around a CDATA-wrapped body. -/
def bodyLine (b : Option Str) : Str :=
  "<body>".data ++ format_body b ++ "</body>".data

/-- Line `<comment id=".." author=".." createdAt="..">` — the source
emits no minimization attributes here (lines 127-130 of the source:
they were removed). -/
def commentOpenTag (c : GhComment) : Str :=
  "<comment id=\"".data ++ safe_get c.id defaultNA ++ "\" author=\"".data ++
    authorLogin c.author ++ "\" createdAt=\"".data ++
    safe_get c.createdAt defaultNA ++ "\">".data

/-- Line `<replies totalCount="..">`. -/
def repliesOpenTag (c : GhComment) : Str :=
  "<replies totalCount=\"".data ++ natStr c.replies.totalCount ++ "\">".data

/-- Line `<reply id=".." author=".." createdAt=".." isMinimized=".."
minimizedReason="..">`. -/
def replyOpenTag (r : GhReply) : Str :=
  "<reply id=\"".data ++ safe_get r.id defaultNA ++ "\" author=\"".data ++
    authorLogin r.author ++ "\" createdAt=\"".data ++
    safe_get r.createdAt defaultNA ++ "\" isMinimized=\"".data ++
    minimizedAttrVal r.isMinimized ++ "\" minimizedReason=\"".data ++
    minimizedReasonVal r ++ "\">".data

/-- The lines generated for one reply. -/
def replyParts (r : GhReply) : List Str :=
  [replyOpenTag r, bodyLine r.bodyText, "</reply>".data]

/-- The lines generated for one comment and its replies. -/
def commentParts (c : GhComment) : List Str :=
  [commentOpenTag c, bodyLine c.bodyText, repliesOpenTag c] ++
    (c.replies.nodes.map replyParts).flatten ++
    [ "</replies>".data, "</comment>".data]

/-- Line `<comments totalCount="..">`. -/
def commentsOpenTag (d : GhDiscussion) : Str :=
  "<comments totalCount=\"".data ++ natStr d.comments.totalCount ++ "\">".data

/-- All generated lines, in source order (discussion_parser.py lines
108-155). -/
def mdParts (d : GhDiscussion) : List Str :=
  [discussionOpenTag d, postOpenTag d, bodyLine d.bodyText, "</post>".data,
    commentsOpenTag d] ++
    (d.comments.nodes.map commentParts).flatten ++
    [ "</comments>".data, "</discussion>".data]

/-- `generate_llm_ready_markdown`: the lines joined by newlines. -/
def generate_llm_ready_markdown (d : GhDiscussion) : Str :=
  joinWith newlineStr (mdParts d)

/-! ## DateParser: `parse_since_to_date` (discussion_parser.py lines 19-71)

Instants are modelled as whole seconds since the Unix epoch (the model
covers instants at or after the epoch; `strftime('%Y-%m-%d')` on an
aware UTC datetime is the civil date of `epochSeconds / 86400` days
after 1970-01-01). -/

/-- Numeric value of a digit string. -/
def digitsVal (ds : Str) : Nat := ds.foldl (fun a c => a * 10 + (c.toNat - 48)) 0

/-- The anchored regex `^\d{4}-\d{2}-\d{2}$`. -/
def matchesAbsDate (s : Str) : Bool :=
  match s with
  | [y1, y2, y3, y4, c1, m1, m2, c2, d1, d2] =>
      y1.isDigit && y2.isDigit && y3.isDigit && y4.isDigit && c1 == '-' &&
        m1.isDigit && m2.isDigit && c2 == '-' && d1.isDigit && d2.isDigit
  | _ => false

/-- The (year, month, day) numbers of a string matching the absolute
pattern. -/
def absDateYMD (s : Str) : Nat × Nat × Nat :=
  match s with
  | [y1, y2, y3, y4, _, m1, m2, _, d1, d2] =>
      (digitsVal [y1, y2, y3, y4], digitsVal [m1, m2], digitsVal [d1, d2])
  | _ => (0, 0, 0)

/-- Gregorian leap-year rule. -/
def isLeapYear (y : Nat) : Bool := y % 4 = 0 ∧ (y % 100 ≠ 0 ∨ y % 400 = 0)

/-- Days in a month of a given year. -/
def daysInMonth (y m : Nat) : Nat :=
  if m = 2 then (if isLeapYear y then 29 else 28)
  else if m = 4 ∨ m = 6 ∨ m = 9 ∨ m = 11 then 30
  else 31

/-- `datetime.strptime(s, '%Y-%m-%d')` validation: the numbers must
denote a real calendar date (year at least 1). -/
def isRealYMD : Nat × Nat × Nat → Bool
  | (y, m, d) =>
      if 1 ≤ y ∧ 1 ≤ m ∧ m ≤ 12 ∧ 1 ≤ d ∧ d ≤ daysInMonth y m then true else false

/-- The anchored regex `^(\d+)([dhwmy])$` applied to the lower-cased
input: one or more digits followed by a unit letter. -/
def matchRelative (s : Str) : Option (Nat × Char) :=
  match s.getLast? with
  | none => none
  | some u =>
      let ds := s.dropLast
      if ds ≠ [] ∧ ds.all Char.isDigit ∧
          (u = 'd' ∨ u = 'h' ∨ u = 'w' ∨ u = 'm' ∨ u = 'y') then
        some (digitsVal ds, u)
      else none

/-- Seconds per unit: day, hour, week, 30-day month, 365-day year
(discussion_parser.py lines 53-64). -/
def unitSeconds (u : Char) : Nat :=
  if u = 'd' then 86400
  else if u = 'h' then 3600
  else if u = 'w' then 604800
  else if u = 'm' then 30 * 86400
  else if u = 'y' then 365 * 86400
  else 0

/-- Convert days since 1970-01-01 to a (year, month, day) civil date
(standard era-decomposition algorithm, as the runtime's UTC calendar). -/
def civilFromDays (z : Nat) : Nat × Nat × Nat :=
  let zi : Int := (z : Int) + 719468
  let era : Int := zi / 146097
  let doe : Int := zi % 146097
  let yoe : Int := (doe - doe / 1460 + doe / 36524 - doe / 146096) / 365
  let y : Int := yoe + era * 400
  let doy : Int := doe - (365 * yoe + yoe / 4 - yoe / 100)
  let mp : Int := (5 * doy + 2) / 153
  let d : Int := doy - (153 * mp + 2) / 5 + 1
  let m : Int := mp + (if mp < 10 then 3 else -9)
  ((y + (if m ≤ 2 then 1 else 0)).toNat, m.toNat, d.toNat)

/-- The separator of the `%Y-%m-%d` format. -/
def dashStr : Str := "-".data

/-- Left-pad a digit string with zeros to the given width. -/
def padZeros (w : Nat) (s : Str) : Str := List.replicate (w - s.length) '0' ++ s

/-- `strftime('%Y-%m-%d')` of a civil date. -/
def formatDateYMD : Nat × Nat × Nat → Str
  | (y, m, d) =>
      padZeros 4 (Nat.toDigits 10 y) ++ dashStr ++ padZeros 2 (Nat.toDigits 10 m) ++
        dashStr ++ padZeros 2 (Nat.toDigits 10 d)

/-- The error surface of `parse_since_to_date`: the three distinct
`ValueError` raises of the source (invalid absolute date, invalid
overall format, and the `Unknown unit` safeguard raise of lines 69-71). -/
inductive SinceError
  | invalidDate
  | invalidFormat
  | unknownUnit
deriving DecidableEq

/-- `parse_since_to_date` (discussion_parser.py lines 19-71).  The
`if deltaSec ≠ 0` test models Python's `if delta:` truthiness check on
the computed `timedelta` (line 66). -/
def parse_since_to_date (nowSec : Nat) (since_str : Str) : Except SinceError Str :=
  if matchesAbsDate since_str then
    if isRealYMD (absDateYMD since_str) then Except.ok since_str
    else Except.error SinceError.invalidDate
  else
    match matchRelative (since_str.map Char.toLower) with
    | none => Except.error SinceError.invalidFormat
    | some (v, u) =>
        let deltaSec := v * unitSeconds u
        if deltaSec ≠ 0 then
          Except.ok (formatDateYMD (civilFromDays ((nowSec - deltaSec) / 86400)))
        else Except.error SinceError.unknownUnit

deriving instance DecidableEq for Except

/-! ## QueryBuilder: the search-query construction fragment of
`GithubParser.get_discussions` (backend.py lines 159-218). -/

/-- The optional-argument record of `get_discussions` (query-string
arguments only; page size and cursor do not contribute to the query
string). -/
structure SearchFilter where
  query_text : Option Str := none
  in_title : Bool := false
  in_body : Bool := false
  in_comments : Bool := false
  author : Option Str := none
  involves : Option Str := none
  is_open : Option Bool := none
  is_answered : Option Bool := none
  is_locked : Option Bool := none
  category : Option Str := none
  label : Option Str := none
  created_after : Option Str := none
  created_before : Option Str := none
  updated_before : Option Str := none
  updated_after : Option Str := none

/-- Python truthiness of an optional string argument: absent and empty
strings are falsy. -/
def strTruthy (o : Option Str) : Bool :=
  match o with
  | some s => !s.isEmpty
  | none => false

/-- A double quote. -/
def dq : Char := '"'

/-- The free-text query part (backend.py lines 161-174): quote the text
if it contains a space character, and append an `in:` qualifier when
any location flag is set (locations in the order title, body,
comments). -/
def textQualifier (f : SearchFilter) (t : Str) : Str :=
  let in_qualifiers :=
    (if f.in_title then [ "title".data] else []) ++
    (if f.in_body then [ "body".data] else []) ++
    (if f.in_comments then [ "comments".data] else [])
  let query_text_quoted := if t.contains ' ' then dq :: (t ++ [dq]) else t
  if in_qualifiers ≠ [] then
    query_text_quoted ++ " in:".data ++ joinWith ",".data in_qualifiers
  else query_text_quoted

/-- `category:" .. "` / `category:..` qualifier, quoted when the name
contains a space (backend.py line 182). -/
def categoryQualifier (c : Str) : Str :=
  if c.contains ' ' then "category:\"".data ++ c ++ [dq]
  else "category:".data ++ c

/-- `label:" .. "` / `label:..` qualifier (backend.py line 183). -/
def labelQualifier (l : Str) : Str :=
  if l.contains ' ' then "label:\"".data ++ l ++ [dq]
  else "label:".data ++ l

/-- The error raised by the updated-date format validation
(backend.py lines 200-205). -/
inductive BuildError
  | invalidDate
deriving DecidableEq

/-- The two base qualifiers (backend.py line 159). -/
def baseParts (owner repo : Str) : List Str :=
  [ "repo:".data ++ owner ++ "/".data ++ repo, "is:discussion".data]

/-- Free-text append site (backend.py lines 161-174). -/
def addTextQual (f : SearchFilter) (query_parts : List Str) : List Str :=
  if strTruthy f.query_text then
    query_parts ++ [textQualifier f (f.query_text.getD emptyStr)]
  else query_parts

/-- Author append site (backend.py line 177). -/
def addAuthorQual (f : SearchFilter) (query_parts : List Str) : List Str :=
  if strTruthy f.author then query_parts ++ [ "author:".data ++ f.author.getD emptyStr]
  else query_parts

/-- Involves append site (backend.py line 180). -/
def addInvolvesQual (f : SearchFilter) (query_parts : List Str) : List Str :=
  if strTruthy f.involves then query_parts ++ [ "involves:".data ++ f.involves.getD emptyStr]
  else query_parts

/-- Category append site (backend.py line 182). -/
def addCategoryQual (f : SearchFilter) (query_parts : List Str) : List Str :=
  if strTruthy f.category then query_parts ++ [categoryQualifier (f.category.getD emptyStr)]
  else query_parts

/-- Label append site (backend.py line 183). -/
def addLabelQual (f : SearchFilter) (query_parts : List Str) : List Str :=
  if strTruthy f.label then query_parts ++ [labelQualifier (f.label.getD emptyStr)]
  else query_parts

/-- Open/closed append site (backend.py line 186): present only when
the argument is not `None`. -/
def addIsOpenQual (f : SearchFilter) (query_parts : List Str) : List Str :=
  match f.is_open with
  | some b => query_parts ++ [ if b then "is:open".data else "is:closed".data]
  | none => query_parts

/-- Answered/unanswered append site (backend.py line 187). -/
def addIsAnsweredQual (f : SearchFilter) (query_parts : List Str) : List Str :=
  match f.is_answered with
  | some b => query_parts ++ [ if b then "is:answered".data else "is:unanswered".data]
  | none => query_parts

/-- Locked/unlocked append site (backend.py line 188). -/
def addIsLockedQual (f : SearchFilter) (query_parts : List Str) : List Str :=
  match f.is_locked with
  | some b => query_parts ++ [ if b then "is:locked".data else "is:unlocked".data]
  | none => query_parts

/-- Created-date append site (backend.py lines 191-193): range, lower
bound, upper bound, or nothing; no format validation. -/
def addCreatedQual (f : SearchFilter) (query_parts : List Str) : List Str :=
  if strTruthy f.created_after ∧ strTruthy f.created_before then
    query_parts ++ [ "created:".data ++ f.created_after.getD emptyStr ++ "..".data ++
      f.created_before.getD emptyStr]
  else if strTruthy f.created_after then
    query_parts ++ [ "created:>=".data ++ f.created_after.getD emptyStr]
  else if strTruthy f.created_before then
    query_parts ++ [ "created:<=".data ++ f.created_before.getD emptyStr]
  else query_parts

/-- All query parts except the trailing updated-date block: the
append sites of backend.py lines 159-193 applied in source order. -/
def nonUpdatedParts (owner repo : Str) (f : SearchFilter) : List Str :=
  addCreatedQual f (addIsLockedQual f (addIsAnsweredQual f (addIsOpenQual f
    (addLabelQual f (addCategoryQual f (addInvolvesQual f (addAuthorQual f
      (addTextQual f (baseParts owner repo)))))))))

/-- The full query-part list: `nonUpdatedParts` followed by the
updated-date block with its single-sided format validation
(backend.py lines 196-206). -/
def buildParts (owner repo : Str) (f : SearchFilter) : Except BuildError (List Str) :=
  let query_parts := nonUpdatedParts owner repo f
  let ua := f.updated_after.getD emptyStr
  let ub := f.updated_before.getD emptyStr
  if strTruthy f.updated_after ∧ strTruthy f.updated_before then
    Except.ok (query_parts ++ [ "updated:".data ++ ua ++ "..".data ++ ub])
  else if strTruthy f.updated_after then
    if !matchesAbsDate ua then Except.error BuildError.invalidDate
    else Except.ok (query_parts ++ [ "updated:>=".data ++ ua])
  else if strTruthy f.updated_before then
    if !matchesAbsDate ub then Except.error BuildError.invalidDate
    else Except.ok (query_parts ++ [ "updated:<=".data ++ ub])
  else Except.ok query_parts

/-- A single space, the separator of `" ".join(query_parts)`. -/
def spaceStr : Str := [' ']

/-- `search_query_string` (backend.py line 218). -/
def buildQuery (owner repo : Str) (f : SearchFilter) : Except BuildError Str :=
  (buildParts owner repo f).map (joinWith spaceStr)

/-! ## PaginationWalker: the `while True` search loop of `main`
(discussion_parser.py lines 372-405 and 417-451; the two branches are
textually identical in structure). -/

/-- The page-continuation info of a search response. -/
structure CPageInfo where
  hasNextPage : Bool
  endCursor : Option Str

/-- One search response as consumed by the loop: `searchTruthy` models
the `if not search_results` falsy-dictionary check, `nodes` the page's
discussion summaries (by number). -/
structure SearchResp where
  searchTruthy : Bool
  nodes : List (Option Nat)
  pageInfo : CPageInfo

/-- Python truthiness of `next_cursor`: absent and empty cursors are
falsy. -/
def cursorTruthy (c : Option Str) : Bool :=
  match c with
  | some s => !s.isEmpty
  | none => false

/-- The pagination loop, parameterized by the platform's response to
each cursor.  `fuel` is only an observation bound of the model:
`some k` means the loop issued exactly `k` search requests and then
exited; `none` means termination was not observed within `fuel`
iterations. -/
def walkRequests (platform : Option Str → SearchResp) : Nat → Option Str → Option Nat
  | 0, _ => none
  | fuel + 1, cur =>
      let r := platform cur
      if !r.searchTruthy then some 1
      else if r.nodes = [] then some 1
      else if !r.pageInfo.hasNextPage || !cursorTruthy r.pageInfo.endCursor then some 1
      else (walkRequests platform fuel r.pageInfo.endCursor).map (· + 1)

/-! ## ResumableProcessor: `process_and_save_discussion`
(discussion_parser.py lines 237-332).

The run directory is modelled as `FsState` (which artifact files
exist), the run-local dedup set as a `Finset Nat`, and the detail
fetch as an oracle `Nat → Option GhDiscussion` (`none` = the fetch
raised).  ISO-timestamp parsing of `createdAt` (line 311) is modelled
as succeeding on any present value, keeping the raw string. -/

/-- Which artifact files exist on disk, per discussion number. -/
structure FsState where
  json : Nat → Bool
  md : Nat → Bool

/-- The ambient run state closed over by the helper: artifacts on disk,
the run-local `processed_discussion_numbers` set, and the
`discussions_for_concatenation` list. -/
structure RunState where
  fs : FsState
  processed : Finset Nat
  concat : List (Str × Str)

/-- Observable effects of one helper invocation. -/
structure Effects where
  fetched : Bool
  wroteJson : Bool
  wroteMd : Bool

/-- No observable effect. -/
def noEffects : Effects := ⟨false, false, false⟩

/-- The run state at run start (`processed_discussion_numbers = set()`,
line 234; no content collected yet). The output directory may already
hold artifacts of earlier runs. -/
def initialRunState (fs : FsState) : RunState :=
  { fs := fs, processed := ∅, concat := [] }

/-- The detail-artifact write of lines 281-294: if the detail artifact
did not exist, persist it and mark the number processed (writes are
modelled as succeeding). Returns the new state and whether a write
happened. -/
def writeJsonStep (st : RunState) (n : Nat) (json_exists : Bool) : RunState × Bool :=
  if ¬ json_exists then
    ({ st with
        fs := { json := fun k => if k = n then true else st.fs.json k, md := st.fs.md },
        processed := insert n st.processed }, true)
  else (st, false)

/-- The serialization write of lines 296-328: if requested and the
serialized artifact does not exist, generate it, persist it and (when
`createdAt` is present) collect it for the final aggregation. -/
def writeMdStep (st : RunState) (n : Nat) (generate_llm_md md_exists : Bool)
    (details : GhDiscussion) : RunState × Bool :=
  if generate_llm_md then
    if ¬ md_exists then
      let markdown_content := generate_llm_ready_markdown details
      let concat2 :=
        match details.createdAt with
        | some ts => st.concat ++ [(ts, markdown_content)]
        | none => st.concat
      ({ st with
          fs := { json := st.fs.json, md := fun k => if k = n then true else st.fs.md k },
          concat := concat2 }, true)
    else (st, false)
  else (st, false)

/-- The late marking of lines 330-332: if the detail artifact already
existed and serialization was requested, ensure the number is in the
processed set. -/
def lateMarkStep (st : RunState) (n : Nat) (json_exists generate_llm_md : Bool) : RunState :=
  if json_exists ∧ generate_llm_md ∧ n ∉ st.processed then
    { st with processed := insert n st.processed }
  else st

/-- `process_and_save_discussion(summary, generate_llm_md)`
(discussion_parser.py lines 237-332).  The final `else` branch with no
fetch mirrors the source structure (the fetch condition of line 269 is
always true when it is reached). -/
def process_and_save_discussion (fetch : Nat → Option GhDiscussion) (st : RunState)
    (summaryNumber : Option Nat) (generate_llm_md : Bool) : RunState × Effects :=
  match summaryNumber with
  | none => (st, noEffects)
  | some n =>
    if n = 0 then (st, noEffects)
    else if n ∈ st.processed then (st, noEffects)
    else
      let json_exists := st.fs.json n
      let md_exists := st.fs.md n
      if json_exists ∧ (¬generate_llm_md ∨ md_exists) then
        ({ st with processed := insert n st.processed }, noEffects)
      else if ¬json_exists ∨ (generate_llm_md ∧ ¬md_exists) then
        match fetch n with
        | none => (st, { fetched := true, wroteJson := false, wroteMd := false })
        | some details =>
          let r1 := writeJsonStep st n json_exists
          let r2 := writeMdStep r1.1 n generate_llm_md md_exists details
          (lateMarkStep r2.1 n json_exists generate_llm_md,
            { fetched := true, wroteJson := r1.2, wroteMd := r2.2 })
      else
        (lateMarkStep st n json_exists generate_llm_md, noEffects)

/-- Process a sequence of surfaced summaries in order (as the search
loops do), recording the effects of each invocation. -/
def runList (fetch : Nat → Option GhDiscussion) (generate_llm_md : Bool) :
    RunState → List (Option Nat) → RunState × List (Option Nat × Effects)
  | st, [] => (st, [])
  | st, s :: rest =>
      let r1 := process_and_save_discussion fetch st s generate_llm_md
      let r2 := runList fetch generate_llm_md r1.1 rest
      (r2.1, (s, r1.2) :: r2.2)

/-- How many of the recorded invocations performed a detail fetch for
discussion number `n`. -/
def countFetchesFor (n : Nat) (es : List (Option Nat × Effects)) : Nat :=
  (es.filter (fun p => p.1 == some n && p.2.fetched)).length

/-! ## TreeSerializer aggregation: the concatenation step of `main`
(discussion_parser.py lines 460-477). -/

/-- The key order of `list.sort(key=lambda item: item[0])`. -/
def tsLe (p q : Nat × Str) : Prop := p.1 ≤ q.1

instance : DecidableRel tsLe := fun p q => Nat.decLe p.1 q.1

instance : IsTotal (Nat × Str) tsLe := ⟨fun a b => Nat.le_total a.1 b.1⟩

instance : IsTrans (Nat × Str) tsLe := ⟨fun _ _ _ => Nat.le_trans⟩

/-- Python's `list.sort` (stable, ascending by key); any stable
ascending sort computes the same list, and insertion sort is one. -/
def pySortByKey (l : List (Nat × Str)) : List (Nat × Str) :=
  List.insertionSort tsLe l

/-- The separator written between consecutive discussions
(line 472). -/
def aggregateSeparator : Str := "\n\n---\n\n".data

/-- The aggregation step: sort the collected (timestamp, text) pairs
ascending by timestamp and concatenate the texts, one separator between
consecutive items and none after the last. -/
def aggregate (items : List (Nat × Str)) : Str :=
  joinWith aggregateSeparator ((pySortByKey items).map Prod.snd)

/-! ## Concrete sample data used by witnesses and counterexamples -/

/-- A minimized reply, as fetched (minimized flag and reason present). -/
def sampleReply : GhReply :=
  { id := none, author := none, createdAt := none, bodyText := none,
    isMinimized := some true, minimizedReason := some ( "spam".data) }

/-- A minimized comment, as fetched (minimized flag and reason
present), with one reply. -/
def sampleComment : GhComment :=
  { id := none, author := none, createdAt := none, bodyText := none,
    isMinimized := some true, minimizedReason := some ( "abuse".data),
    replies := ⟨1, [sampleReply]⟩ }

/-- A small hydrated discussion with one comment and one reply. -/
def sampleDiscussion : GhDiscussion :=
  { title := none, url := none, number := 5, author := none,
    createdAt := some ( "2024-01-02T03:04:05Z".data), bodyText := none,
    comments := ⟨1, [sampleComment]⟩ }

/-- `sampleDiscussion` with the reply's minimized flag flipped; the
discussions differ only in that reply field. -/
def sampleDiscussionReplyShown : GhDiscussion :=
  { sampleDiscussion with
      comments := ⟨1, [ { sampleComment with
        replies := ⟨1, [ { sampleReply with isMinimized := some false } ]⟩ } ]⟩ }

/-- The serialized text of `sampleDiscussion`, written out in full: the
comment element carries only id/author/createdAt, the reply element
additionally carries isMinimized/minimizedReason. -/
def goldenOutput : Str :=
  ( "<discussion url=\"N/A\" number=\"5\" title=\"N/A\">\n<post author=\"N/A\" createdAt=\"2024-01-02T03:04:05Z\">\n<body><![CDATA[]]></body>\n</post>\n<comments totalCount=\"1\">\n<comment id=\"N/A\" author=\"N/A\" createdAt=\"N/A\">\n<body><![CDATA[]]></body>\n<replies totalCount=\"1\">\n<reply id=\"N/A\" author=\"N/A\" createdAt=\"N/A\" isMinimized=\"True\" minimizedReason=\"spam\">\n<body><![CDATA[]]></body>\n</reply>\n</replies>\n</comment>\n</comments>\n</discussion>").data

/-- Overwrite a comment's minimized flag and reason. -/
def setCommentMinimized (b : Option Bool) (rs : Option Str) (c : GhComment) : GhComment :=
  { c with isMinimized := b, minimizedReason := rs }

/-- Apply a function to every fetched comment of a discussion. -/
def mapComments (g : GhComment → GhComment) (d : GhDiscussion) : GhDiscussion :=
  { d with comments := ⟨d.comments.totalCount, d.comments.nodes.map g⟩ }

theorem commentParts_setMinimized (b : Option Bool) (rs : Option Str) (c : GhComment) :
    commentParts (setCommentMinimized b rs c) = commentParts c := rfl

set_option maxRecDepth 100000 in
/-- C10: in every serialized discussion the comment elements carry only
id, author and createdAt — the serialization is invariant under any
change of the comments' fetched minimized flag and reason — while reply
elements do carry isMinimized and minimizedReason attributes: the
serialization depends on a reply's minimized flag, and the sample's
serialized text exhibits the exact attribute sets of both elements. -/
theorem c10_minimized_attributes :
    (∀ (d : GhDiscussion) (b : Option Bool) (rs : Option Str),
        generate_llm_ready_markdown (mapComments (setCommentMinimized b rs) d) =
          generate_llm_ready_markdown d) ∧
    generate_llm_ready_markdown sampleDiscussion = goldenOutput ∧
    generate_llm_ready_markdown sampleDiscussion ≠
      generate_llm_ready_markdown sampleDiscussionReplyShown := by
  refine ⟨?_, by decide, by decide⟩
  intro d b rs
  unfold generate_llm_ready_markdown
  have h1 : mdParts (mapComments (setCommentMinimized b rs) d) = mdParts d := by
    unfold mdParts mapComments
    simp only [List.map_map]
    have h2 : (commentParts ∘ setCommentMinimized b rs) = commentParts := by
      funext c
      exact commentParts_setMinimized b rs c
    rw [h2]
    rfl
  rw [h1]

/-! ## Claim C3: the `--since` parser -/

/-- The relative expression `0d`. -/
def zeroDStr : Str := "0d".data

/-- The impossible absolute date of the claim. -/
def feb30Str : Str := "2024-02-30".data

/-- The leap-day absolute date of the claim. -/
def feb29Str : Str := "2024-02-29".data

/-- C3 (code bug): the relative expression `0d` matches the documented
relative pattern (one or more digits followed by a unit letter), yet
`parse_since_to_date` raises the `Unknown unit` ValueError for it —
Python's falsy zero `timedelta` sends line 66's `if delta:` into the
"should not happen" safeguard branch — instead of returning `now_utc`
truncated to a date as the claim states.  The absolute-date conjuncts
of the claim do hold, as the last two conjuncts show. -/
theorem c3_parse_since_zero_value (nowSec : Nat) :
    parse_since_to_date nowSec zeroDStr = Except.error SinceError.unknownUnit ∧
    parse_since_to_date nowSec feb30Str = Except.error SinceError.invalidDate ∧
    parse_since_to_date nowSec feb29Str = Except.ok feb29Str := by
  refine ⟨?_, ?_, ?_⟩
  · have h1 : matchesAbsDate zeroDStr = false := by decide
    have h2 : matchRelative (zeroDStr.map Char.toLower) = some (0, 'd') := by decide
    simp [parse_since_to_date, h1, h2]
  · have h1 : matchesAbsDate feb30Str = true := by decide
    have h2 : isRealYMD (absDateYMD feb30Str) = false := by decide
    simp [parse_since_to_date, h1, h2]
  · have h1 : matchesAbsDate feb29Str = true := by decide
    have h2 : isRealYMD (absDateYMD feb29Str) = true := by decide
    simp [parse_since_to_date, h1, h2]

/-! ## QueryBuilder: spec-side description and refinement

`specNonUpdatedSegs`/`specUpdatedSeg` restate §4.2 of the spec as a flat
concatenation of independent qualifier segments in the documented fixed
order (repository/type scope, free text, author, involves, category,
label, state flags, created, updated), to be compared with the
append-chain of the source. -/

theorem append_ite (c : Prop) [Decidable c] (p : List Str) (x : Str) :
    (if c then p ++ [x] else p) = p ++ (if c then [x] else []) := by
  split <;> simp

theorem append_matchOptBool (o : Option Bool) (p : List Str) (x y : Str) :
    (match o with
      | some b => p ++ [ if b then x else y]
      | none => p) =
      p ++ (match o with | some b => [ if b then x else y] | none => []) := by
  cases o <;> simp

theorem append_ite3 (c1 c2 c3 : Prop) [Decidable c1] [Decidable c2] [Decidable c3]
    (p : List Str) (x y z : Str) :
    (if c1 then p ++ [x] else if c2 then p ++ [y] else if c3 then p ++ [z] else p) =
      p ++ (if c1 then [x] else if c2 then [y] else if c3 then [z] else []) := by
  split_ifs <;> simp

/-- Spec-side: the qualifier segments before the updated block, in the
documented order. -/
def specNonUpdatedSegs (owner repo : Str) (f : SearchFilter) : List Str :=
  [ "repo:".data ++ owner ++ "/".data ++ repo, "is:discussion".data] ++
  (if strTruthy f.query_text then [textQualifier f (f.query_text.getD emptyStr)] else []) ++
  (if strTruthy f.author then [ "author:".data ++ f.author.getD emptyStr] else []) ++
  (if strTruthy f.involves then [ "involves:".data ++ f.involves.getD emptyStr] else []) ++
  (if strTruthy f.category then [categoryQualifier (f.category.getD emptyStr)] else []) ++
  (if strTruthy f.label then [labelQualifier (f.label.getD emptyStr)] else []) ++
  (match f.is_open with
    | some b => [ if b then "is:open".data else "is:closed".data]
    | none => []) ++
  (match f.is_answered with
    | some b => [ if b then "is:answered".data else "is:unanswered".data]
    | none => []) ++
  (match f.is_locked with
    | some b => [ if b then "is:locked".data else "is:unlocked".data]
    | none => []) ++
  (if strTruthy f.created_after ∧ strTruthy f.created_before then
      [ "created:".data ++ f.created_after.getD emptyStr ++ "..".data ++
          f.created_before.getD emptyStr]
    else if strTruthy f.created_after then
      [ "created:>=".data ++ f.created_after.getD emptyStr]
    else if strTruthy f.created_before then
      [ "created:<=".data ++ f.created_before.getD emptyStr]
    else [])

/-- Spec-side: the updated segment (range, lower-bound or upper-bound
form). -/
def specUpdatedSeg (f : SearchFilter) : List Str :=
  if strTruthy f.updated_after ∧ strTruthy f.updated_before then
    [ "updated:".data ++ f.updated_after.getD emptyStr ++ "..".data ++
        f.updated_before.getD emptyStr]
  else if strTruthy f.updated_after then
    [ "updated:>=".data ++ f.updated_after.getD emptyStr]
  else if strTruthy f.updated_before then
    [ "updated:<=".data ++ f.updated_before.getD emptyStr]
  else []

/-- Spec-side: all qualifier segments in the documented fixed order. -/
def specQualifierSegs (owner repo : Str) (f : SearchFilter) : List Str :=
  specNonUpdatedSegs owner repo f ++ specUpdatedSeg f

theorem addTextQual_eq (f : SearchFilter) (p : List Str) :
    addTextQual f p =
      p ++ (if strTruthy f.query_text then [textQualifier f (f.query_text.getD emptyStr)]
        else []) := by
  unfold addTextQual
  split <;> simp

theorem addAuthorQual_eq (f : SearchFilter) (p : List Str) :
    addAuthorQual f p =
      p ++ (if strTruthy f.author then [ "author:".data ++ f.author.getD emptyStr] else []) := by
  unfold addAuthorQual
  split <;> simp

theorem addInvolvesQual_eq (f : SearchFilter) (p : List Str) :
    addInvolvesQual f p =
      p ++ (if strTruthy f.involves then [ "involves:".data ++ f.involves.getD emptyStr]
        else []) := by
  unfold addInvolvesQual
  split <;> simp

theorem addCategoryQual_eq (f : SearchFilter) (p : List Str) :
    addCategoryQual f p =
      p ++ (if strTruthy f.category then [categoryQualifier (f.category.getD emptyStr)]
        else []) := by
  unfold addCategoryQual
  split <;> simp

theorem addLabelQual_eq (f : SearchFilter) (p : List Str) :
    addLabelQual f p =
      p ++ (if strTruthy f.label then [labelQualifier (f.label.getD emptyStr)] else []) := by
  unfold addLabelQual
  split <;> simp

theorem addIsOpenQual_eq (f : SearchFilter) (p : List Str) :
    addIsOpenQual f p =
      p ++ (match f.is_open with
        | some b => [ if b then "is:open".data else "is:closed".data]
        | none => []) := by
  unfold addIsOpenQual
  cases f.is_open <;> simp

theorem addIsAnsweredQual_eq (f : SearchFilter) (p : List Str) :
    addIsAnsweredQual f p =
      p ++ (match f.is_answered with
        | some b => [ if b then "is:answered".data else "is:unanswered".data]
        | none => []) := by
  unfold addIsAnsweredQual
  cases f.is_answered <;> simp

theorem addIsLockedQual_eq (f : SearchFilter) (p : List Str) :
    addIsLockedQual f p =
      p ++ (match f.is_locked with
        | some b => [ if b then "is:locked".data else "is:unlocked".data]
        | none => []) := by
  unfold addIsLockedQual
  cases f.is_locked <;> simp

theorem addCreatedQual_eq (f : SearchFilter) (p : List Str) :
    addCreatedQual f p =
      p ++ (if strTruthy f.created_after ∧ strTruthy f.created_before then
          [ "created:".data ++ f.created_after.getD emptyStr ++ "..".data ++
              f.created_before.getD emptyStr]
        else if strTruthy f.created_after then
          [ "created:>=".data ++ f.created_after.getD emptyStr]
        else if strTruthy f.created_before then
          [ "created:<=".data ++ f.created_before.getD emptyStr]
        else []) := by
  unfold addCreatedQual
  split_ifs <;> simp

theorem nonUpdatedParts_eq_spec (owner repo : Str) (f : SearchFilter) :
    nonUpdatedParts owner repo f = specNonUpdatedSegs owner repo f := by
  unfold nonUpdatedParts specNonUpdatedSegs baseParts
  rw [addCreatedQual_eq, addIsLockedQual_eq, addIsAnsweredQual_eq, addIsOpenQual_eq,
    addLabelQual_eq, addCategoryQual_eq, addInvolvesQual_eq, addAuthorQual_eq, addTextQual_eq]

/-- Refinement helper: every successful `buildParts` result is exactly
the spec-side segment concatenation. -/
theorem buildParts_eq_spec (owner repo : Str) (f : SearchFilter) (ps : List Str)
    (h : buildParts owner repo f = Except.ok ps) :
    ps = specQualifierSegs owner repo f := by
  unfold buildParts at h
  dsimp only at h
  rw [nonUpdatedParts_eq_spec] at h
  unfold specQualifierSegs specUpdatedSeg
  split_ifs at h <;> simp_all

/-- C5: `buildParts` fails with InvalidDate exactly when one single
updated-date bound is given (truthy) and fails the strict `YYYY-MM-DD`
pattern; the range form and all created-date forms never trigger the
validation. -/
theorem c5_updated_validation (owner repo : Str) (f : SearchFilter) :
    buildParts owner repo f = Except.error BuildError.invalidDate ↔
      ((strTruthy f.updated_after = true ∧ strTruthy f.updated_before = false ∧
          matchesAbsDate (f.updated_after.getD emptyStr) = false) ∨
        (strTruthy f.updated_before = true ∧ strTruthy f.updated_after = false ∧
          matchesAbsDate (f.updated_before.getD emptyStr) = false)) := by
  unfold buildParts
  dsimp only
  split_ifs <;> simp_all

/-- The example owner of the claimed query strings. -/
def ownerEx : Str := "OWNER".data

/-- The example repository of the claimed query strings. -/
def repoEx : Str := "REPO".data

/-- The empty filter (every argument at its default). -/
def emptyFilter : SearchFilter := {}

/-- The base query of the empty filter. -/
def baseQueryStr : Str := "repo:OWNER/REPO is:discussion".data

/-- The claim's example filter. -/
def aliceFilter : SearchFilter :=
  { author := some ( "alice".data), is_open := some true,
    created_after := some ( "2024-01-01".data) }

/-- The claim's expected query for `aliceFilter`. -/
def aliceQueryStr : Str :=
  "repo:OWNER/REPO is:discussion author:alice is:open created:>=2024-01-01".data

/-- C8: the query builder is a pure function of the filter; the empty
filter yields exactly the two base qualifiers; the example filter
yields exactly the claimed string; and every successful result is the
concatenation of the qualifier segments in the documented fixed order
(scope, free text, author, involves, category, label, state flags,
created, updated). -/
theorem c8_build_fixed_order :
    buildQuery ownerEx repoEx emptyFilter = Except.ok baseQueryStr ∧
    buildQuery ownerEx repoEx aliceFilter = Except.ok aliceQueryStr ∧
    (∀ (owner repo : Str) (f : SearchFilter) (ps : List Str),
        buildParts owner repo f = Except.ok ps → ps = specQualifierSegs owner repo f) :=
  ⟨by decide, by decide, buildParts_eq_spec⟩

/-- Witness for C8 at the empty filter. -/
theorem c8_build_fixed_order_witness :
    [ "repo:OWNER/REPO".data, "is:discussion".data] =
      specQualifierSegs ownerEx repoEx emptyFilter :=
  c8_build_fixed_order.2.2 ownerEx repoEx emptyFilter
    [ "repo:OWNER/REPO".data, "is:discussion".data] (by decide)

/-- Spec-side description of the free-text term (amended C4): wrapped
in double quotes exactly when it contains a space character; an `in:`
qualifier listing only the selected locations, in the order title,
body, comments, is appended with the text; with no location flag the
text is appended bare. -/
def specFreeTextTerm (t : Str) (inTitle inBody inComments : Bool) : Str :=
  let quoted := if t.contains ' ' then dq :: (t ++ [dq]) else t
  let locs :=
    (if inTitle then [ "title".data] else []) ++
    (if inBody then [ "body".data] else []) ++
    (if inComments then [ "comments".data] else [])
  if locs = [] then quoted else quoted ++ " in:".data ++ joinWith ",".data locs

/-- Claim C4 as stated: quoting whenever the text contains any
whitespace character. -/
def specFreeTextTermWs (t : Str) (inTitle inBody inComments : Bool) : Str :=
  let quoted := if t.any pyIsSpace then dq :: (t ++ [dq]) else t
  let locs :=
    (if inTitle then [ "title".data] else []) ++
    (if inBody then [ "body".data] else []) ++
    (if inComments then [ "comments".data] else [])
  if locs = [] then quoted else quoted ++ " in:".data ++ joinWith ",".data locs

theorem textQualifier_eq_spec (f : SearchFilter) (t : Str) :
    textQualifier f t = specFreeTextTerm t f.in_title f.in_body f.in_comments := by
  unfold textQualifier specFreeTextTerm
  dsimp only
  split_ifs <;> simp_all

/-- C4 (amended): whenever a non-empty free-text term is present, the
third query part is the free-text term, quoted exactly when it contains
a space character (not general whitespace), followed by the `in:`
qualifier of the selected locations in the order title, body, comments
(bare when no location flag is set). -/
theorem c4_free_text_qualifier (owner repo : Str) (f : SearchFilter) (t : Str)
    (ps : List Str) (ht : f.query_text = some t) (hne : t ≠ [])
    (hok : buildParts owner repo f = Except.ok ps) :
    ps[2]? = some (specFreeTextTerm t f.in_title f.in_body f.in_comments) := by
  have hspec := buildParts_eq_spec owner repo f ps hok
  subst hspec
  have htr : strTruthy f.query_text = true := by
    rw [ht]
    cases t with
    | nil => exact absurd rfl hne
    | cons c cs => rfl
  unfold specQualifierSegs specNonUpdatedSegs
  rw [htr, ht]
  simp [textQualifier_eq_spec, ht]

/-- The claim's example filter for the free-text qualifier. -/
def helloFilter : SearchFilter :=
  { query_text := some ( "hello world".data), in_title := true }

/-- A free-text term containing a tab (whitespace but not a space). -/
def tabText : Str := "a\tb".data

/-- A filter whose free text contains a tab. -/
def tabFilter : SearchFilter := { query_text := some tabText, in_title := true }

/-- Witness for C4 on the claim's own example: filter{text="hello
world", in_title} produces the part `"hello world" in:title`. -/
theorem c4_free_text_qualifier_witness :
    [ "repo:o/r".data, "is:discussion".data, "\"hello world\" in:title".data][2]? =
      some (specFreeTextTerm ( "hello world".data) true false false) :=
  c4_free_text_qualifier ( "o".data) ( "r".data) helloFilter ( "hello world".data)
    [ "repo:o/r".data, "is:discussion".data, "\"hello world\" in:title".data]
    rfl (by decide) (by decide)

/-- Counterexample to C4 as stated: for the tab-containing text the
source emits the term unquoted (`' ' in query_text` checks only the
space character), while the claim's whitespace-based description
predicts a quoted term. -/
theorem c4_counterexample :
    buildParts ( "o".data) ( "r".data) tabFilter =
        Except.ok [ "repo:o/r".data, "is:discussion".data, "a\tb in:title".data] ∧
      specFreeTextTermWs tabText true false false ≠ "a\tb in:title".data := by
  constructor <;> decide

/-- C6: the pagination loop is bounded by its defensive exits — a page
with an empty item sequence ends the walk after that single request
regardless of the has-next-page flag; a non-empty page with
has-next-page false or a falsy end cursor also ends it; and against a
platform that never returns a (truthy) end cursor the walk always
terminates after exactly one request, for every observation bound and
start cursor. -/
theorem c6_walk_termination (platform : Option Str → SearchResp) :
    (∀ (fuel : Nat) (cur : Option Str), (platform cur).nodes = [] →
        walkRequests platform (fuel + 1) cur = some 1) ∧
    (∀ (fuel : Nat) (cur : Option Str),
        ((platform cur).pageInfo.hasNextPage = false ∨
          cursorTruthy (platform cur).pageInfo.endCursor = false) →
        walkRequests platform (fuel + 1) cur = some 1) ∧
    ((∀ c, cursorTruthy (platform c).pageInfo.endCursor = false) →
      ∀ (fuel : Nat) (cur : Option Str), walkRequests platform (fuel + 1) cur = some 1) := by
  refine ⟨?_, ?_, ?_⟩
  · intro fuel cur hempty
    unfold walkRequests
    simp [hempty]
  · intro fuel cur hstop
    unfold walkRequests
    rcases hstop with h | h <;> by_cases hs : (platform cur).searchTruthy <;>
      by_cases he : (platform cur).nodes = [] <;> simp [h, hs, he]
  · intro hnc fuel cur
    unfold walkRequests
    by_cases hs : (platform cur).searchTruthy <;>
      by_cases he : (platform cur).nodes = [] <;> simp [hnc cur, hs, he]

/-- A platform response reporting has-next-page without any end cursor
(the adversarial scenario of the claim). -/
def respNoCursor : SearchResp :=
  { searchTruthy := true, nodes := [some 1],
    pageInfo := { hasNextPage := true, endCursor := none } }

/-- Witness for C6: against the cursor-less platform the walk stops
after exactly one request. -/
theorem c6_walk_termination_witness :
    walkRequests (fun _ => respNoCursor) 7 none = some 1 :=
  (c6_walk_termination (fun _ => respNoCursor)).2.2 (fun _ => rfl) 6 none

/-! ## ResumableProcessor lemmas and claims C1 / C7 -/

theorem writeJsonStep_mono (st : RunState) (n : Nat) (je : Bool) :
    st.processed ⊆ (writeJsonStep st n je).1.processed := by
  unfold writeJsonStep
  split
  · exact Finset.subset_insert n st.processed
  · exact fun x hx => hx

theorem writeJsonStep_false_mem (st : RunState) (n : Nat) :
    n ∈ (writeJsonStep st n false).1.processed := by
  unfold writeJsonStep
  simp

theorem writeJsonStep_true (st : RunState) (n : Nat) :
    writeJsonStep st n true = (st, false) := by
  unfold writeJsonStep
  simp

theorem writeMdStep_processed (st : RunState) (n : Nat) (g me : Bool) (d : GhDiscussion) :
    (writeMdStep st n g me d).1.processed = st.processed := by
  unfold writeMdStep
  split_ifs <;> rfl

theorem lateMarkStep_mono (st : RunState) (n : Nat) (je g : Bool) :
    st.processed ⊆ (lateMarkStep st n je g).processed := by
  unfold lateMarkStep
  split
  · exact Finset.subset_insert n st.processed
  · exact fun x hx => hx

theorem lateMarkStep_mem (st : RunState) (n : Nat) (je g : Bool)
    (hje : je = true) (hg : g = true) :
    n ∈ (lateMarkStep st n je g).processed := by
  unfold lateMarkStep
  by_cases hm : n ∈ st.processed
  · split
    · exact Finset.mem_insert_self n _
    · exact hm
  · rw [if_pos ⟨hje, hg, hm⟩]
    exact Finset.mem_insert_self n _

theorem process_processed_mono (fetch : Nat → Option GhDiscussion) (st : RunState)
    (s : Option Nat) (llm : Bool) :
    st.processed ⊆ (process_and_save_discussion fetch st s llm).1.processed := by
  rcases s with _ | n
  · exact fun x hx => hx
  · unfold process_and_save_discussion
    dsimp only
    split_ifs with h0 hp hskip hneed
    · exact fun x hx => hx
    · exact fun x hx => hx
    · exact Finset.subset_insert n st.processed
    · cases hf : fetch n with
      | none => exact fun x hx => hx
      | some d =>
        dsimp only
        intro x hx
        apply lateMarkStep_mono
        rw [writeMdStep_processed]
        exact writeJsonStep_mono st n _ hx
    · exact lateMarkStep_mono st n _ llm

theorem process_no_fetch_of_processed (fetch : Nat → Option GhDiscussion) (st : RunState)
    (n : Nat) (llm : Bool) (h : n ∈ st.processed) :
    (process_and_save_discussion fetch st (some n) llm).2.fetched = false := by
  unfold process_and_save_discussion
  by_cases h0 : n = 0 <;> simp [h0, h, noEffects]

theorem process_fetch_marks (fetch : Nat → Option GhDiscussion) (st : RunState)
    (n : Nat) (llm : Bool) (hf : (fetch n).isSome)
    (hfetched : (process_and_save_discussion fetch st (some n) llm).2.fetched = true) :
    n ∈ (process_and_save_discussion fetch st (some n) llm).1.processed := by
  obtain ⟨d, hd⟩ := Option.isSome_iff_exists.mp hf
  unfold process_and_save_discussion at hfetched ⊢
  dsimp only at hfetched ⊢
  split_ifs at hfetched ⊢ with h0 hp hskip hneed
  · simp [noEffects] at hfetched
  · simp [noEffects] at hfetched
  · simp [noEffects] at hfetched
  · rw [hd] at hfetched ⊢
    dsimp only
    by_cases hj : st.fs.json n = true
    · -- detail existed: the skip test being false forces llm ∧ no md;
      -- the late-mark step inserts the number
      apply lateMarkStep_mem
      · exact hj
      · rcases not_and_or.mp hskip with hc | hc
        · exact absurd hj hc
        · rcases not_or.mp hc with ⟨hllm, _⟩
          simpa using hllm
    · have hjf : st.fs.json n = false := by simpa using hj
      apply lateMarkStep_mono
      rw [writeMdStep_processed]
      rw [hjf]
      exact writeJsonStep_false_mem st n
  · simp [noEffects] at hfetched

theorem countFetchesFor_cons (n : Nat) (p : Option Nat × Effects)
    (es : List (Option Nat × Effects)) :
    countFetchesFor n (p :: es) =
      (if p.1 = some n ∧ p.2.fetched = true then 1 else 0) + countFetchesFor n es := by
  unfold countFetchesFor
  rw [List.filter_cons]
  by_cases h : (p.1 == some n && p.2.fetched) = true
  · rw [if_pos h]
    simp only [Bool.and_eq_true, beq_iff_eq] at h
    rw [if_pos h]
    simp [Nat.add_comm]
  · rw [if_neg h]
    simp only [Bool.and_eq_true, beq_iff_eq] at h
    rw [if_neg h]
    simp

theorem runList_zero_of_processed (fetch : Nat → Option GhDiscussion) (llm : Bool) (n : Nat) :
    ∀ (l : List (Option Nat)) (st : RunState), n ∈ st.processed →
      countFetchesFor n (runList fetch llm st l).2 = 0 := by
  intro l
  induction l with
  | nil => intro st _; rfl
  | cons s rest ih =>
    intro st h
    unfold runList
    dsimp only
    rw [countFetchesFor_cons]
    rw [ih _ (process_processed_mono fetch st s llm h)]
    rcases s with _ | m
    · simp
    · by_cases hmn : m = n
      · subst hmn
        simp [process_no_fetch_of_processed fetch st m llm h]
      · simp [hmn]

theorem runList_fetch_at_most_once (fetch : Nat → Option GhDiscussion) (llm : Bool)
    (n : Nat) (hf : (fetch n).isSome) :
    ∀ (l : List (Option Nat)) (st : RunState),
      countFetchesFor n (runList fetch llm st l).2 ≤ 1 := by
  intro l
  induction l with
  | nil => intro st; simp [runList, countFetchesFor, List.filter]
  | cons s rest ih =>
    intro st
    unfold runList
    dsimp only
    rw [countFetchesFor_cons]
    rcases s with _ | m
    · simpa using ih _
    · by_cases hmn : m = n
      · subst hmn
        by_cases hfe : (process_and_save_discussion fetch st (some m) llm).2.fetched = true
        · rw [runList_zero_of_processed fetch llm m rest _
            (process_fetch_marks fetch st m llm hf hfe)]
          simp [hfe]
        · rw [if_neg (by simp [hfe])]
          simpa using ih _
      · rw [if_neg (by simp [hmn])]
        simpa using ih _

theorem lateMarkStep_fs (st : RunState) (n : Nat) (je g : Bool) :
    (lateMarkStep st n je g).fs = st.fs := by
  unfold lateMarkStep
  split <;> rfl

theorem writeMdStep_gen (st : RunState) (n : Nat) (d : GhDiscussion) :
    (writeMdStep st n true false d).1.fs.json = st.fs.json ∧
    (writeMdStep st n true false d).1.fs.md = (fun k => if k = n then true else st.fs.md k) ∧
    (writeMdStep st n true false d).2 = true := by
  unfold writeMdStep
  refine ⟨?_, ?_, ?_⟩ <;> simp

/-- C1 (amended): for a discussion whose detail artifact exists from a
prior run while its serialized artifact does not, a run with
serialization enabled performs a detail fetch for that discussion (the
source deliberately re-fetches, line 262, because the detail data is
needed to generate the serialized text) but produces only the missing
serialized artifact: no detail artifact is written, the detail-file
state is unchanged, and only the discussion's serialized file appears. -/
theorem c1_resume_generates_md_only (fetch : Nat → Option GhDiscussion) (st : RunState) (n : Nat)
    (d : GhDiscussion) (hjson : st.fs.json n = true) (hmd : st.fs.md n = false)
    (hproc : n ∉ st.processed) (hn : n ≠ 0) (hfetch : fetch n = some d) :
    (process_and_save_discussion fetch st (some n) true).2.fetched = true ∧
    (process_and_save_discussion fetch st (some n) true).2.wroteJson = false ∧
    (process_and_save_discussion fetch st (some n) true).2.wroteMd = true ∧
    (process_and_save_discussion fetch st (some n) true).1.fs.json = st.fs.json ∧
    (process_and_save_discussion fetch st (some n) true).1.fs.md n = true ∧
    (∀ k, k ≠ n → (process_and_save_discussion fetch st (some n) true).1.fs.md k
      = st.fs.md k) := by
  have hstep : process_and_save_discussion fetch st (some n) true =
      (lateMarkStep
          (writeMdStep (writeJsonStep st n (st.fs.json n)).1 n true (st.fs.md n) d).1
          n (st.fs.json n) true,
        { fetched := true, wroteJson := (writeJsonStep st n (st.fs.json n)).2,
          wroteMd :=
            (writeMdStep (writeJsonStep st n (st.fs.json n)).1 n true (st.fs.md n) d).2 }) := by
    unfold process_and_save_discussion
    dsimp only
    rw [if_neg hn, if_neg hproc, if_neg (by simp [hjson, hmd]), if_pos (by simp [hmd]), hfetch]
  rw [hjson, hmd] at hstep
  rw [writeJsonStep_true] at hstep
  dsimp only at hstep
  obtain ⟨hj, hm, hw⟩ := writeMdStep_gen st n d
  rw [hstep]
  refine ⟨rfl, rfl, hw, ?_, ?_, ?_⟩
  · rw [lateMarkStep_fs, hj]
  · rw [lateMarkStep_fs, hm]
    simp
  · intro k hk
    rw [lateMarkStep_fs, hm]
    simp [hk]

/-- Artifacts on disk for the C1 scenario: the detail artifact of #42
exists, its serialized artifact does not. -/
def fsJsonOnly : FsState := { json := fun k => k == 42, md := fun _ => false }

/-- Run state at the start of the new run of the C1 scenario. -/
def stC1 : RunState := initialRunState fsJsonOnly

/-- A detail fetch that always succeeds. -/
def fetchOk : Nat → Option GhDiscussion := fun _ => some sampleDiscussion

/-- A detail fetch that always fails. -/
def fetchFail : Nat → Option GhDiscussion := fun _ => none

/-- Witness for C1 at the concrete scenario (discussion #42, detail
artifact present, serialized artifact absent). -/
theorem c1_resume_generates_md_only_witness :
    (process_and_save_discussion fetchOk stC1 (some 42) true).2.fetched = true ∧
    (process_and_save_discussion fetchOk stC1 (some 42) true).2.wroteJson = false ∧
    (process_and_save_discussion fetchOk stC1 (some 42) true).2.wroteMd = true :=
  have h := c1_resume_generates_md_only fetchOk stC1 42 sampleDiscussion (by decide)
    (by decide) (by decide) (by decide) rfl
  ⟨h.1, h.2.1, h.2.2.1⟩

/-- Counterexample to C1 as stated: in the detail-present /
serialized-absent scenario the source fetches the detail again over the
network (source comment, line 262: the detail data is needed to
generate the serialized text), contradicting the claimed
"performs no network detail fetch". -/
theorem c1_counterexample :
    ¬ ((process_and_save_discussion fetchOk stC1 (some 42) true).2.fetched = false) := by
  decide

/-- C7 (amended): the run-local processed set starts empty, is
consulted before every detail fetch (a number already in the set is
never fetched again), and grows monotonically (never shrinks); and for
every discussion number whose detail fetch succeeds, a whole run
performs at most one detail fetch for that number however often it is
surfaced.  (When the fetch fails, the number is deliberately left
unmarked and a later surfacing in the same run retries the fetch.) -/
theorem c7_at_most_once_fetch (fetch : Nat → Option GhDiscussion) (llm : Bool) (n : Nat)
    (hf : (fetch n).isSome) :
    (∀ fs, (initialRunState fs).processed = ∅) ∧
    (∀ st, n ∈ st.processed →
        (process_and_save_discussion fetch st (some n) llm).2.fetched = false) ∧
    (∀ st s, st.processed ⊆ (process_and_save_discussion fetch st s llm).1.processed) ∧
    (∀ st l, countFetchesFor n (runList fetch llm st l).2 ≤ 1) :=
  ⟨fun _ => rfl,
   fun st h => process_no_fetch_of_processed fetch st n llm h,
   fun st s => process_processed_mono fetch st s llm,
   fun st l => runList_fetch_at_most_once fetch llm n hf l st⟩

/-- Witness for C7: the same number surfaced twice in one run with a
succeeding fetch is fetched at most once. -/
theorem c7_at_most_once_fetch_witness :
    countFetchesFor 5
      (runList fetchOk true (initialRunState ⟨fun _ => false, fun _ => false⟩)
        [some 5, some 5]).2 ≤ 1 :=
  (c7_at_most_once_fetch fetchOk true 5 (by decide)).2.2.2
    (initialRunState ⟨fun _ => false, fun _ => false⟩) [some 5, some 5]

/-- Counterexample to C7 as stated: with a failing detail fetch the
number is never marked processed, so a second surfacing within the same
run fetches again — two fetches for one number in one run. -/
theorem c7_counterexample :
    ¬ (countFetchesFor 5
        (runList fetchFail true (initialRunState ⟨fun _ => false, fun _ => false⟩)
          [some 5, some 5]).2 ≤ 1) := by
  decide

/-! ## Claims C2 and C9 -/

/-- A body containing the literal-text terminator. -/
def c2Body : Str := "a]]>b".data

/-- Counterexample to C2 as stated: CDATA content is literal (entities
are not decoded on re-parse), so the `]]&gt;` substitution is not
undone and the re-parsed text differs from the whitespace-collapsed
original body whenever the body contains `]]>`. -/
theorem c2_counterexample :
    parseCdata (format_body (some c2Body)) ≠ some (collapseWs c2Body) := by decide

/-- C9: the aggregation step sorts its (timestamp, text) pairs
ascending by timestamp (the sorted result is a permutation of the
input) and concatenates the texts with exactly one fixed separator
between consecutive items and none after the last; in particular for
t1 < t2, aggregate [(t2, b), (t1, a)] = b-after-a with one
separator. -/
theorem c9_aggregate_sorts_and_joins (t1 t2 : Nat) (a b : Str) (h : t1 < t2) :
    (∀ items : List (Nat × Str),
        List.Sorted tsLe (pySortByKey items) ∧ (pySortByKey items).Perm items) ∧
    aggregate [(t2, b), (t1, a)] = a ++ aggregateSeparator ++ b := by
  constructor
  · intro items
    exact ⟨List.sorted_insertionSort tsLe items, List.perm_insertionSort tsLe items⟩
  · unfold aggregate pySortByKey
    have hns : ¬ tsLe (t2, b) (t1, a) := by
      simp [tsLe]
      omega
    simp [List.insertionSort, List.orderedInsert, hns, joinWith]

/-- Witness for C9 at concrete timestamps 0 < 1. -/
theorem c9_aggregate_sorts_and_joins_witness :
    aggregate [(1, "B".data), (0, "A".data)] = "A".data ++ aggregateSeparator ++ "B".data :=
  (c9_aggregate_sorts_and_joins 0 1 ( "A".data) ( "B".data) (by decide)).2
